import Mathlib

/-!
Verification of the Apache Flink MCP server's core logic
(`mcp_server.py`) against its natural-language specification.

The Python source is shallowly embedded: JSON scalar values become the
inductive `PyVal`, Python numbers become `PyNum` (with `PyFloat`
distinguishing finite values from NaN/Infinity), float arithmetic is
modelled exactly over `ℚ` (binary rounding of IEEE doubles is abstracted;
none of the verified properties probes it), and the stateful connection
dictionary becomes explicit state passing over `ConnState`.
-/

namespace FlinkMCP

/-! ## Python value model -/

/-- A Python `float` as held by the server: either a finite value
(modelled exactly as a rational) or one of the non-finite floats. -/
inductive PyFloat where
  | fin (q : ℚ)
  | nan
  | inf
  | ninf
deriving DecidableEq

/-- A Python number: `int` or `float` (the distinction `_to_num` cares about). -/
inductive PyNum where
  | int (z : ℤ)
  | float (f : PyFloat)
deriving DecidableEq

/-- A JSON scalar as surfaced by `response.json()`: a number, a string,
`null`, or some other (non-scalar / non-coercible) value. -/
inductive PyVal where
  | num (n : PyNum)
  | str (s : String)
  | null
  | other
deriving DecidableEq

/-- A present numeric result is finite when it is an `int` or a finite `float`. -/
def PyNum.isFinite : PyNum → Bool
  | .int _ => true
  | .float (.fin _) => true
  | .float _ => false

/-- Python `str.strip()` on ASCII whitespace (the Unicode extras are irrelevant here). -/
def pyStrip (s : String) : String :=
  ⟨((s.data.dropWhile Char.isWhitespace).reverse.dropWhile Char.isWhitespace).reverse⟩

/-! ## Model of Python's `float(str)` parser

`float()` accepts an optionally signed decimal literal with optional
fraction and exponent, or the special spellings `inf` / `infinity` /
`nan` (case-insensitive), surrounded by whitespace.  The numeric value
is modelled exactly in `ℚ`. -/

/-- Value of a digit string (most significant first). -/
def digitsVal (ds : List Char) : ℕ :=
  ds.foldl (fun a c => a * 10 + (c.toNat - '0'.toNat)) 0

/-- Parse the optional exponent suffix `e[sign]digits` applied to `mant`. -/
def parseExpSuffix (mant : ℚ) : List Char → Option ℚ
  | [] => some mant
  | e :: rest =>
    if e = 'e' ∨ e = 'E' then
      let sgnRest : ℤ × List Char :=
        match rest with
        | '+' :: r => (1, r)
        | '-' :: r => (-1, r)
        | r => (1, r)
      let ds := sgnRest.2.takeWhile Char.isDigit
      let rest3 := sgnRest.2.dropWhile Char.isDigit
      if ds.isEmpty ∨ ¬ rest3.isEmpty then none
      else some (mant * (10 : ℚ) ^ (sgnRest.1 * (digitsVal ds : ℤ)))
    else none

/-- Parse an unsigned decimal literal `digits[.digits][exp]` (at least one
digit in the mantissa). -/
def parseUnsigned (cs : List Char) : Option ℚ :=
  let intds := cs.takeWhile Char.isDigit
  let rest := cs.dropWhile Char.isDigit
  match rest with
  | '.' :: rest2 =>
    let fracds := rest2.takeWhile Char.isDigit
    let rest3 := rest2.dropWhile Char.isDigit
    if intds.isEmpty ∧ fracds.isEmpty then none
    else
      parseExpSuffix ((digitsVal intds : ℚ) + (digitsVal fracds : ℚ) / (10 : ℚ) ^ fracds.length) rest3
  | rest1 =>
    if intds.isEmpty then none
    else parseExpSuffix (digitsVal intds : ℚ) rest1

/-- The special float spellings, case-insensitive. -/
def parseSpecial (cs : List Char) : Option PyFloat :=
  let low := cs.map Char.toLower
  if low = "inf".data ∨ low = "infinity".data then some .inf
  else if low = "nan".data then some .nan
  else none

/-- Model of Python `float(s)`: `none` when `float()` would raise `ValueError`. -/
def pyFloatParse (s : String) : Option PyFloat :=
  let cs := (pyStrip s).data
  let signRest : Bool × List Char :=
    match cs with
    | '+' :: r => (false, r)
    | '-' :: r => (true, r)
    | r => (false, r)
  match parseSpecial signRest.2 with
  | some .inf => some (if signRest.1 then .ninf else .inf)
  | some f => some f
  | none =>
    match parseUnsigned signRest.2 with
    | some q => some (.fin (if signRest.1 then -q else q))
    | none => none

/-- Python `int(f)` on a finite float truncates toward zero. -/
def pyTrunc (q : ℚ) : ℤ :=
  if 0 ≤ q then ⌊q⌋ else ⌈q⌉

/-- Python `int(f)` on a float: raises (`none`) on NaN/Infinity. -/
def pyIntOfFloat : PyFloat → Option ℤ
  | .fin q => some (pyTrunc q)
  | _ => none

/-- Model of `_to_num(v)` from `mcp_server.py`:

    def _to_num(v):
        try:
            if isinstance(v, (int, float)):
                return v
            if isinstance(v, str) and v.strip() != "":
                f = float(v)
                i = int(f)
                return i if i == f else f
        except:
            pass
        return None

The argument is `Option PyVal`: `none` models a missing value. -/
def to_num : Option PyVal → Option PyNum
  | some (.num n) => some n
  | some (.str s) =>
    if pyStrip s = "" then none
    else
      match pyFloatParse s with
      | none => none
      | some f =>
        match pyIntOfFloat f with
        | none => none
        | some i => if PyFloat.fin (i : ℚ) = f then some (.int i) else some (.float f)
  | _ => none

/-! ## `_format_bytes` -/

/-- The unit ladder of `_format_bytes`. -/
def fbUnits : List String := ["B", "KB", "MB", "GB", "TB"]

/-- The `while bytes_val >= 1024 and unit_index < len(units) - 1` loop of
`_format_bytes`, with explicit fuel.  Each iteration increments the unit
index and the guard requires `i < 4`, so 4 units of fuel always suffice:
when the fuel runs out the guard is already false. -/
def fbLoopFuel : ℕ → ℚ → ℕ → ℚ × ℕ
  | 0, v, i => (v, i)
  | fuel + 1, v, i =>
    if 1024 ≤ v ∧ i < 4 then fbLoopFuel fuel (v / 1024) (i + 1) else (v, i)

/-- The unit-escalation loop of `_format_bytes` started at value `v`, index `i`. -/
def fbLoop (v : ℚ) (i : ℕ) : ℚ × ℕ := fbLoopFuel 4 v i

/-- Two-decimal rendering of a nonnegative rational (`f"{v:.2f}"`;
round-half-up stands in for Python's round-half-even, which differs only
on digit ties that no verified property touches). -/
def fmt2 (q : ℚ) : String :=
  let n := ⌊q * 100 + 1 / 2⌋
  let ip := n / 100
  let fp := (n % 100).toNat
  toString ip ++ "." ++ (if fp < 10 then "0" else "") ++ toString fp

/-- Model of `_format_bytes(bytes_val)` from `mcp_server.py` (on an already-numeric
input; the `float()` coercion and its failure path take non-numeric
arguments to "N/A" and are not probed by the claims). -/
def format_bytes (b : ℚ) : String :=
  if b ≤ 0 then "0 B"
  else
    let r := fbLoop b 0
    fmt2 r.1 ++ " " ++ fbUnits.getD r.2 ""

/-! ## `_chunk` and `fetch_values` (SnapshotFetcher) -/

/-- The generator body of `_chunk`: `buf` accumulates until it reaches `n`. -/
def chunkGo (n : ℕ) : List α → List α → List (List α)
  | buf, [] => if buf.isEmpty then [] else [buf]
  | buf, x :: xs =>
    if (buf ++ [x]).length = n then (buf ++ [x]) :: chunkGo n [] xs
    else chunkGo n (buf ++ [x]) xs

/-- Model of `_chunk(seq, n)` from `mcp_server.py`: partition `seq` into ordered
batches of `n`, the last batch possibly shorter. -/
def chunk (seq : List α) (n : ℕ) : List (List α) := chunkGo n [] seq

/-- A raw metric point of the metrics endpoint, with its id and value;
the value may be absent entirely (`none`). -/
structure RawMetricPoint where
  id : String
  value : Option PyVal
deriving DecidableEq

/-- Outcome of one HTTP GET against the metrics endpoint, as observed
through `raise_for_status()`: a JSON list of points, an
`httpx.HTTPStatusError` carrying the status (4xx or 5xx), or a non-status
failure (network error, timeout). -/
inductive FetchOutcome where
  | ok (pts : List RawMetricPoint)
  | httpError (status : ℕ)
  | netError
deriving DecidableEq

/-- The monitoring server, as the function from the requested name list
(the comma-joined `get` parameter) to the response. -/
abbrev Server := List String → FetchOutcome

/-- A failed fetch: an HTTP status error or a non-status failure. -/
inductive FetchErr where
  | http (status : ℕ)
  | net
deriving DecidableEq

/-- The `for batch in _chunk(selected, 50)` loop of `fetch_values`:
issue one request per batch, concatenating results in batch order; the
first failure aborts the loop with its error. -/
def runBatches (server : Server) : List (List String) → Except FetchErr (List RawMetricPoint)
  | [] => .ok []
  | b :: bs =>
    match server b with
    | .ok pts =>
      match runBatches server bs with
      | .ok rest => .ok (pts ++ rest)
      | .error e => .error e
    | .httpError st => .error (.http st)
    | .netError => .error .net

/-- Result of the fallback loop of `fetch_values`: one request per
individual name, in the original order, accumulating results; the first
failure is fatal for the whole fetch (the exception escapes
`fetch_values`), so no partial result is returned. -/
def runSinglesRes (server : Server) : List String → Except FetchErr (List RawMetricPoint)
  | [] => .ok []
  | m :: ms =>
    match server [m] with
    | .ok pts =>
      match runSinglesRes server ms with
      | .ok rest => .ok (pts ++ rest)
      | .error e => .error e
    | .httpError st => .error (.http st)
    | .netError => .error .net

/-- The requests the fallback loop actually issues: one single-name
request per name until (and including) the first failing one. -/
def runSinglesReqs (server : Server) : List String → List (List String)
  | [] => []
  | m :: ms =>
    match server [m] with
    | .ok _ => [m] :: runSinglesReqs server ms
    | _ => [[m]]

/-- Model of `fetch_values(client, selected)` from `get_job_metrics`: batched
requests of 50 names; on `httpx.HTTPStatusError` the accumulated results
are discarded and the per-name fallback runs; any other exception
propagates. -/
def fetch_values (server : Server) (selected : List String) : Except FetchErr (List RawMetricPoint) :=
  match runBatches server (chunk selected 50) with
  | .ok r => .ok r
  | .error (.http _) => runSinglesRes server selected
  | .error .net => .error .net

/-! ## ConnectionSession (`FLINK_CONNECTION`, `check_initialized`,
`initialize_flink_connection`) -/

/-- The global `FLINK_CONNECTION` dictionary, passed explicitly. -/
structure ConnState where
  url : Option String
  initialized : Bool
deriving DecidableEq

/-- The state at process start: `{"url": None, "initialized": False}`. -/
def initialConn : ConnState := ⟨none, false⟩

/-- The single error message of `check_initialized`. -/
def notInitializedMsg : String :=
  "Flink connection not initialized. Please call initialize_flink_connection first."

/-- Model of `check_initialized()` from `mcp_server.py`. -/
def check_initialized (s : ConnState) : Bool × Option String :=
  if s.initialized then (true, none) else (false, some notInitializedMsg)

/-- Python `url.rstrip` with the slash character. -/
def rstripSlash (u : String) : String :=
  ⟨(u.data.reverse.dropWhile (fun c => c = '/')).reverse⟩

/-- Model of `initialize_flink_connection(flink_url)`: the liveness probe outcome is
the `probeOk` argument (the HTTP capability is external).  On success the
state is set to the trimmed URL with `initialized := true`; on failure the
prior state is left untouched. -/
def initialize_flink_connection (s : ConnState) (flinkUrl : String) (probeOk : Bool) : ConnState :=
  if probeOk then ⟨some (rstripSlash flinkUrl), true⟩ else s

/-- A sequence of `initialize_flink_connection` calls (URL and probe outcome),
applied in order. -/
def applyInits (s : ConnState) (evs : List (String × Bool)) : ConnState :=
  evs.foldl (fun st e => initialize_flink_connection st e.1 e.2) s

/-- Result of one gated tool invocation: either the not-initialized error
(no network request is issued) or a run of the body, which records the
network requests it issued and its output. -/
inductive OpResult (α : Type) where
  | notInit (msg : String)
  | ran (requests : List String) (out : α)

/-- The gate pattern shared by every Flink-querying tool:

    is_init, error_msg = check_initialized()
    if not is_init:
        return error_msg
    url = FLINK_CONNECTION url ++ path
    ...network...

`body` is the tool body, a pure function of the endpoint that reports the
requests it would issue and its output. -/
def gatedOp {α : Type} (s : ConnState) (body : String → List String × α) : OpResult α :=
  let r := check_initialized s
  if r.1 then
    OpResult.ran (body (s.url.getD "")).1 (body (s.url.getD "")).2
  else
    OpResult.notInit (r.2.getD "")

/-! ## DiagnosticEvaluator for `get_job_metrics` (step 3-6 of the tool)

Snapshot fields hold the `_to_num` results for the corresponding metric
ids (values are rationals; the non-finite floats are irrelevant to the
hint rules verified below). -/

structure JobMetricsSnapshot where
  uptimeMs : Option ℚ
  numRestarts : Option ℚ
  totalCkpt : Option ℚ
  completedCkpt : Option ℚ
  failedCkpt : Option ℚ
  lastCkptDurationMs : Option ℚ
  lastCkptExternalPath : Option String
deriving DecidableEq

/-- Derived `failure_ratio = (failed_ckpt / total_ckpt) if total_ckpt > 0 else None`,
with `failed_ckpt` and `total_ckpt` defaulted to 0 by `... or 0`. -/
def failureRatioOf (s : JobMetricsSnapshot) : Option ℚ :=
  if 0 < s.totalCkpt.getD 0 then some (s.failedCkpt.getD 0 / s.totalCkpt.getD 0) else none

/-- Derived `success_ratio = (completed_ckpt / total_ckpt) if total_ckpt > 0 else None`. -/
def successRatioOf (s : JobMetricsSnapshot) : Option ℚ :=
  if 0 < s.totalCkpt.getD 0 then some (s.completedCkpt.getD 0 / s.totalCkpt.getD 0) else none

/-- The five hint rules of `get_job_metrics`, in declaration order. -/
inductive JobHint where
  | staleCheckpointing
  | checkpointFailureRatio
  | repeatedRestarts
  | slowCheckpoint
  | noExternalPath
deriving DecidableEq

/-- Condition `(uptime_ms or 0) > 10 * 60 * 1000 and completed_ckpt == 0`
(with `completed_ckpt = _to_num(...) or 0`). -/
def staleCond (s : JobMetricsSnapshot) : Bool :=
  decide (600000 < s.uptimeMs.getD 0) && decide (s.completedCkpt.getD 0 = 0)

/-- Condition `total_ckpt >= 5 and failure_ratio is not None and failure_ratio > 0.3`. -/
def ckptFailCond (s : JobMetricsSnapshot) : Bool :=
  decide (5 ≤ s.totalCkpt.getD 0) &&
    (match failureRatioOf s with
     | some r => decide (3 / 10 < r)
     | none => false)

/-- Condition `num_restarts >= 3` (with `num_restarts = _to_num(...) or 0`). -/
def restartsCond (s : JobMetricsSnapshot) : Bool :=
  decide (3 ≤ s.numRestarts.getD 0)

/-- Condition `last_ckpt_duration_ms and last_ckpt_duration_ms > 60_000`
(Python truthiness: `None` and `0` short-circuit to no hint). -/
def slowCond (s : JobMetricsSnapshot) : Bool :=
  match s.lastCkptDurationMs with
  | some d => decide (d ≠ 0) && decide (60000 < d)
  | none => false

/-- Python truthiness of the external-path value: `None` and `""` are falsy. -/
def pathFalsy : Option String → Bool
  | none => true
  | some t => decide (t = "")

/-- Condition `(completed_ckpt > 0) and not last_ckpt_external_path`. -/
def noExtCond (s : JobMetricsSnapshot) : Bool :=
  decide (0 < s.completedCkpt.getD 0) && pathFalsy s.lastCkptExternalPath

/-- The hint list built by `get_job_metrics` (step 6), in rule order. -/
def jobHints (s : JobMetricsSnapshot) : List JobHint :=
  (if staleCond s then [JobHint.staleCheckpointing] else []) ++
  (if ckptFailCond s then [JobHint.checkpointFailureRatio] else []) ++
  (if restartsCond s then [JobHint.repeatedRestarts] else []) ++
  (if slowCond s then [JobHint.slowCheckpoint] else []) ++
  (if noExtCond s then [JobHint.noExternalPath] else [])

/-- Modelled from the spec: the stale-checkpointing rule as the spec words
it — absent inputs suppress the findings that need them, so the WARN
requires both the uptime and the completed-checkpoint count to be
present, with uptime > 10 minutes and completed count equal to 0.
(Stated for comparison with the code's `staleCond`.) -/
def specStaleCond (s : JobMetricsSnapshot) : Bool :=
  match s.uptimeMs, s.completedCkpt with
  | some u, some c => decide (600000 < u) && decide (c = 0)
  | _, _ => false

/-! ## `list_taskmanagers` / `get_taskmanager_details` displays and rules -/

/-- The slot percentage interpolated into the `Used Slots:` /
`Free Slots:` lines: `(used/total*100) if total > 0 else 0` — a number is
always rendered, with `0` standing in when `total` is not positive. -/
def tmSlotPctDisplay (used total : ℚ) : ℚ :=
  if 0 < total then used / total * 100 else 0

/-- The memory percentage interpolated into the `Free Memory:` line:
`(free_mem/phys_mem*100) if phys_mem > 0 else 0`. -/
def tmMemPctDisplay (freeMem physMem : ℚ) : ℚ :=
  if 0 < physMem then freeMem / physMem * 100 else 0

/-- Modelled from the spec: a ratio display that is unavailable (`none`)
when the denominator is not positive, per "else reported as unavailable
(never divide by zero, never report 0%...)".  (Stated for comparison with
the code's display values.) -/
def specPctDisplay (n d : ℚ) : Option ℚ :=
  if 0 < d then some (n / d * 100) else none

/-- The slot-utilization classification of the `UTILIZATION ANALYSIS`
block of `list_taskmanagers` (lines 592-599): skipped entirely unless
`slots_total > 0`, else HIGH at `>= 90`, MODERATE at `>= 70`, LOW below. -/
inductive SlotUtilLevel where
  | high
  | moderate
  | low
  | skipped
deriving DecidableEq

/-- Derived `slot_util = (slots_used / slots_total) * 100` and its classification. -/
def slotUtilLevel (slotsUsed slotsTotal : ℚ) : SlotUtilLevel :=
  if 0 < slotsTotal then
    if 90 ≤ slotsUsed / slotsTotal * 100 then .high
    else if 70 ≤ slotsUsed / slotsTotal * 100 then .moderate
    else .low
  else .skipped

/-- The heap warning of `get_taskmanager_details` (line 1060):
`if heap_used / heap_max > 0.9 if heap_max > 0 else False:` — the
conditional expression guards the division and the comparison is strict. -/
def heapWarnLine (heapUsed heapMax : ℚ) : Bool :=
  if 0 < heapMax then decide (9 / 10 < heapUsed / heapMax) else false

/-- Modelled from the spec: the heap rule as the spec words it — CRITICAL
whenever `heapUsed/heapMax >= 90%`, including at exactly 90.0%.  (Stated
for comparison with the code's `heapWarnLine`.) -/
def specHeapWarn (heapUsed heapMax : ℚ) : Bool :=
  if 0 < heapMax then decide (9 / 10 ≤ heapUsed / heapMax) else false

/-! ## `get_vertex_backpressure` data-skew rule -/

/-- The `ratio` field of one subtask as returned by the server: missing,
a number, or some non-numeric value (e.g. the string `"NaN"`). -/
inductive RatioField where
  | missing
  | num (q : ℚ)
  | nonNum
deriving DecidableEq

structure BpSubtask where
  ratioVal : RatioField
deriving DecidableEq

/-- Value `s.get("ratio", 0)` filtered by `isinstance(..., (int, float))`: a
missing field defaults to the int `0`, which passes the numeric check; a
present non-numeric value is dropped. -/
def ratioContribution : RatioField → Option ℚ
  | .missing => some 0
  | .num q => some q
  | .nonNum => none

/-- Comprehension `ratios`: for each subtask, `s.get("ratio", 0)` kept when
`isinstance(..., (int, float))` holds. -/
def skewRatios (subtasks : List BpSubtask) : List ℚ :=
  subtasks.filterMap (fun s => ratioContribution s.ratioVal)

/-- The skew warning of `get_vertex_backpressure` (lines 1350-1355):
`if subtasks and len(subtasks) > 1:` then
`if ratios and max(ratios) - min(ratios) > 0.3:`. -/
def skewWarn (subtasks : List BpSubtask) : Bool :=
  if 1 < subtasks.length then
    match skewRatios subtasks with
    | [] => false
    | r :: rs => decide (3 / 10 < rs.foldl max r - rs.foldl min r)
  else false

/-- Modelled from the spec: the skew rule as the spec words it — computed
only when at least 2 subtasks report numeric ratios, over exactly those
numeric-reporting subtasks (a missing ratio does not participate).
(Stated for comparison with the code's `skewWarn`.) -/
def specSkewRatios (subtasks : List BpSubtask) : List ℚ :=
  subtasks.filterMap (fun s =>
    match s.ratioVal with
    | .num q => some q
    | _ => none)

/-- Modelled from the spec: skew WARN iff `>= 2` numeric-reporting
subtasks and `max - min > 0.30` over them. -/
def specSkewWarn (subtasks : List BpSubtask) : Bool :=
  match specSkewRatios subtasks with
  | [] => false
  | [_] => false
  | r :: rs => decide (3 / 10 < rs.foldl max r - rs.foldl min r)

/-! ## Helper lemmas -/

theorem mem_ite_singleton {α : Type} {c : Prop} [Decidable c] (a b : α) :
    (a ∈ (if c then [b] else [])) ↔ (c ∧ a = b) := by
  split
  · simp only [List.mem_singleton]
    exact ⟨fun h => ⟨by assumption, h⟩, fun h => h.2⟩
  · simp only [List.not_mem_nil, false_iff]
    intro h
    exact absurd h.1 (by assumption)

theorem foldl_max_mem (r : ℚ) (rs : List ℚ) : rs.foldl max r ∈ r :: rs := by
  induction rs generalizing r with
  | nil => simp
  | cons a t ih =>
    have h := ih (max r a)
    rw [List.foldl_cons]
    rcases List.mem_cons.mp h with h1 | h1
    · rcases max_choice r a with h2 | h2 <;> rw [h1, h2] <;> simp
    · exact List.mem_cons_of_mem _ (List.mem_cons_of_mem _ h1)

theorem le_foldl_max (r : ℚ) (rs : List ℚ) : ∀ x ∈ r :: rs, x ≤ rs.foldl max r := by
  induction rs generalizing r with
  | nil =>
    intro x hx
    rw [List.mem_singleton] at hx
    simp [hx]
  | cons a t ih =>
    intro x hx
    rw [List.foldl_cons]
    have hhead : max r a ≤ t.foldl max (max r a) := ih (max r a) (max r a) (List.mem_cons_self _ _)
    rcases List.mem_cons.mp hx with h1 | h1
    · exact h1.le.trans (le_trans (le_max_left r a) hhead)
    · rcases List.mem_cons.mp h1 with h2 | h2
      · exact h2.le.trans (le_trans (le_max_right r a) hhead)
      · exact ih (max r a) x (List.mem_cons_of_mem _ h2)

theorem foldl_min_mem (r : ℚ) (rs : List ℚ) : rs.foldl min r ∈ r :: rs := by
  induction rs generalizing r with
  | nil => simp
  | cons a t ih =>
    have h := ih (min r a)
    rw [List.foldl_cons]
    rcases List.mem_cons.mp h with h1 | h1
    · rcases min_choice r a with h2 | h2 <;> rw [h1, h2] <;> simp
    · exact List.mem_cons_of_mem _ (List.mem_cons_of_mem _ h1)

theorem foldl_min_le (r : ℚ) (rs : List ℚ) : ∀ x ∈ r :: rs, rs.foldl min r ≤ x := by
  induction rs generalizing r with
  | nil =>
    intro x hx
    rw [List.mem_singleton] at hx
    simp [hx]
  | cons a t ih =>
    intro x hx
    rw [List.foldl_cons]
    have hhead : t.foldl min (min r a) ≤ min r a := ih (min r a) (min r a) (List.mem_cons_self _ _)
    rcases List.mem_cons.mp hx with h1 | h1
    · exact le_trans (le_trans hhead (min_le_left r a)) h1.ge
    · rcases List.mem_cons.mp h1 with h2 | h2
      · exact le_trans (le_trans hhead (min_le_right r a)) h2.ge
      · exact ih (min r a) x (List.mem_cons_of_mem _ h2)

theorem pyTrunc_cast_eq_iff (q : ℚ) : ((pyTrunc q : ℚ) = q) ↔ q.den = 1 := by
  constructor
  · intro h
    rw [← h]
    exact Rat.den_intCast _
  · intro h
    have hq : ((q.num : ℤ) : ℚ) = q := by
      have h2 := Rat.num_div_den q
      rw [h] at h2
      simpa using h2
    unfold pyTrunc
    split
    · rw [← hq, Int.floor_intCast]
    · rw [← hq, Int.ceil_intCast]

theorem chunkGo_flatten {α : Type} (n : ℕ) :
    ∀ (xs buf : List α), (chunkGo n buf xs).flatten = buf ++ xs := by
  intro xs
  induction xs with
  | nil =>
    intro buf
    cases buf with
    | nil => simp [chunkGo]
    | cons b bs => simp [chunkGo]
  | cons x xs ih =>
    intro buf
    by_cases h : buf.length + 1 = n
    · simp [chunkGo, h, ih []]
    · simp [chunkGo, h, ih (buf ++ [x])]

theorem chunkGo_map_length {α β : Type} (n : ℕ) :
    ∀ (xs : List α) (ys : List β) (buf : List α) (buf2 : List β),
      xs.length = ys.length → buf.length = buf2.length →
      (chunkGo n buf xs).map List.length = (chunkGo n buf2 ys).map List.length := by
  intro xs
  induction xs with
  | nil =>
    intro ys buf buf2 hxy hb
    cases ys with
    | nil =>
      have hbe : buf.isEmpty = buf2.isEmpty := by
        cases buf <;> cases buf2 <;> simp_all
      by_cases h : buf2.isEmpty
      · simp [chunkGo, h, hbe]
      · simp [chunkGo, h, hbe, hb]
    | cons y ys => simp at hxy
  | cons x xs ih =>
    intro ys buf buf2 hxy hb
    cases ys with
    | nil => simp at hxy
    | cons y ys =>
      have hb2 : (buf ++ [x]).length = (buf2 ++ [y]).length := by simp [hb]
      have hxy2 : xs.length = ys.length := by simpa using hxy
      by_cases h : (buf ++ [x]).length = n
      · have h2 : (buf2 ++ [y]).length = n := hb2 ▸ h
        simp only [chunkGo, h, h2, if_true, List.map_cons]
        rw [ih ys [] [] hxy2 rfl]
      · have h2 : ¬ (buf2 ++ [y]).length = n := hb2 ▸ h
        simp only [chunkGo, h, h2, if_false]
        exact ih ys (buf ++ [x]) (buf2 ++ [y]) hxy2 hb2

theorem fbLoopFuel_snd_le (fuel : ℕ) :
    ∀ (v : ℚ) (i : ℕ), i ≤ 4 → (fbLoopFuel fuel v i).2 ≤ 4 := by
  induction fuel with
  | zero => intro v i hi; exact hi
  | succ fuel ih =>
    intro v i hi
    unfold fbLoopFuel
    split
    · exact ih _ _ (by omega)
    · exact hi

theorem fbLoopFuel_post (fuel : ℕ) :
    ∀ (v : ℚ) (i : ℕ), 4 - i ≤ fuel → i ≤ 4 →
      ((fbLoopFuel fuel v i).1 < 1024 ∨ (fbLoopFuel fuel v i).2 = 4) := by
  induction fuel with
  | zero =>
    intro v i hf hi
    right
    show i = 4
    omega
  | succ fuel ih =>
    intro v i hf hi
    unfold fbLoopFuel
    split
    · rename_i hguard
      exact ih _ _ (by omega) (by omega)
    · rename_i hguard
      rw [not_and_or] at hguard
      rcases hguard with h | h
      · left
        exact lt_of_not_le h
      · right
        show i = 4
        omega

theorem fbLoopFuel_val (fuel : ℕ) :
    ∀ (v : ℚ) (i : ℕ),
      (fbLoopFuel fuel v i).1 * 1024 ^ (fbLoopFuel fuel v i).2 = v * 1024 ^ i := by
  induction fuel with
  | zero => intro v i; rfl
  | succ fuel ih =>
    intro v i
    unfold fbLoopFuel
    split
    · rw [ih (v / 1024) (i + 1), pow_succ]
      field_simp
      ring
    · rfl

theorem mem_jobHints (s : JobMetricsSnapshot) (h : JobHint) :
    h ∈ jobHints s ↔
      ((staleCond s = true ∧ h = JobHint.staleCheckpointing)
      ∨ (ckptFailCond s = true ∧ h = JobHint.checkpointFailureRatio)
      ∨ (restartsCond s = true ∧ h = JobHint.repeatedRestarts)
      ∨ (slowCond s = true ∧ h = JobHint.slowCheckpoint)
      ∨ (noExtCond s = true ∧ h = JobHint.noExternalPath)) := by
  unfold jobHints
  simp only [List.mem_append, mem_ite_singleton]
  tauto

/-! ## Claim theorems -/

/-- C1: for every job-metrics snapshot in which the total and failed
checkpoint counts are available, the CRITICAL checkpoint-failure hint is
emitted iff total >= 5 and failed/total > 0.30 (stated division-free as
3 * total < 10 * failed). -/
theorem checkpoint_failure_rule (s : JobMetricsSnapshot) (t f : ℚ)
    (ht : s.totalCkpt = some t) (hf : s.failedCkpt = some f) :
    JobHint.checkpointFailureRatio ∈ jobHints s ↔ (5 ≤ t ∧ 3 * t < 10 * f) := by
  rw [mem_jobHints]
  simp only [and_true, and_false, false_or, or_false, reduceCtorEq]
  unfold ckptFailCond failureRatioOf
  rw [ht, hf]
  simp only [Option.getD_some]
  by_cases hpos : (0 : ℚ) < t
  · rw [if_pos hpos]
    simp only [Bool.and_eq_true, decide_eq_true_eq]
    constructor
    · rintro ⟨h5, hr⟩
      refine ⟨h5, ?_⟩
      rw [div_lt_div_iff (by norm_num) hpos] at hr
      linarith
    · rintro ⟨h5, hr⟩
      refine ⟨h5, ?_⟩
      rw [div_lt_div_iff (by norm_num) hpos]
      linarith
  · rw [if_neg hpos]
    simp only [Bool.and_eq_true, decide_eq_true_eq]
    constructor
    · rintro ⟨-, hbad⟩
      simp at hbad
    · rintro ⟨h5, -⟩
      exact absurd (lt_of_lt_of_le (by norm_num : (0 : ℚ) < 5) h5) hpos

/-- C1 witness: total=10, failed=4 (ratio 0.40) emits the hint;
total=10, failed=3 (ratio exactly 0.30) does not. -/
theorem checkpoint_failure_rule_witness :
    JobHint.checkpointFailureRatio ∈
      jobHints ⟨some 0, some 0, some 10, some 5, some 4, none, none⟩
    ∧ JobHint.checkpointFailureRatio ∉
      jobHints ⟨some 0, some 0, some 10, some 5, some 3, none, none⟩ := by
  constructor
  · exact (checkpoint_failure_rule _ 10 4 rfl rfl).mpr (by norm_num)
  · intro hmem
    have h := (checkpoint_failure_rule _ 10 3 rfl rfl).mp hmem
    norm_num at h

/-- C2 counterexample: at heapUsed=9, heapMax=10 the ratio is exactly 90%;
the code's strict `> 0.9` does not warn, while the claim's `>= 90%`
(`specHeapWarn`) does. -/
theorem heap_threshold_cx :
    heapWarnLine 9 10 = false ∧ specHeapWarn 9 10 = true := by
  constructor
  · unfold heapWarnLine
    rw [if_pos (by norm_num : (0 : ℚ) < 10)]
    simp only [decide_eq_false_iff_not]
    norm_num
  · unfold specHeapWarn
    rw [if_pos (by norm_num : (0 : ℚ) < 10)]
    simp only [decide_eq_true_eq]
    norm_num

/-- C2 amended: the heap CRITICAL warning fires iff heapMax > 0 and
heapUsed/heapMax is strictly above 90% (exactly 90.0% does not warn);
the HIGH slot-utilization WARN fires iff slotsTotal > 0 and
used/total >= 90% (both stated division-free). -/
theorem heap_slot_threshold_rules :
    (∀ heapUsed heapMax : ℚ,
        heapWarnLine heapUsed heapMax = true ↔ 0 < heapMax ∧ 9 * heapMax < 10 * heapUsed)
    ∧ (∀ slotsUsed slotsTotal : ℚ,
        slotUtilLevel slotsUsed slotsTotal = SlotUtilLevel.high
          ↔ 0 < slotsTotal ∧ 9 * slotsTotal ≤ 10 * slotsUsed) := by
  constructor
  · intro u m
    unfold heapWarnLine
    by_cases hm : (0 : ℚ) < m
    · rw [if_pos hm]
      simp only [decide_eq_true_eq]
      constructor
      · intro h
        refine ⟨hm, ?_⟩
        rw [div_lt_div_iff (by norm_num) hm] at h
        linarith
      · rintro ⟨-, h⟩
        rw [div_lt_div_iff (by norm_num) hm]
        linarith
    · rw [if_neg hm]
      simp only [Bool.false_eq_true, false_iff, not_and]
      intro h
      exact absurd h hm
  · intro u t
    unfold slotUtilLevel
    by_cases ht : (0 : ℚ) < t
    · rw [if_pos ht]
      by_cases h9 : 90 ≤ u / t * 100
      · rw [if_pos h9]
        constructor
        · intro _
          refine ⟨ht, ?_⟩
          rw [div_mul_eq_mul_div, le_div_iff ht] at h9
          linarith
        · intro _
          rfl
      · rw [if_neg h9]
        constructor
        · intro h
          split at h <;> simp_all
        · rintro ⟨-, h⟩
          exfalso
          apply h9
          rw [div_mul_eq_mul_div, le_div_iff ht]
          linarith
    · rw [if_neg ht]
      constructor
      · intro h
        exact SlotUtilLevel.noConfusion h
      · rintro ⟨h, -⟩
        exact absurd h ht

/-- C4 counterexample: with two subtasks, the first reporting ratio 0.5
and the second carrying no ratio field the code defaults the missing ratio to 0 and warns
(difference 0.5 > 0.3), while the claim's rule over numeric-reporting
subtasks only (`specSkewWarn`) sees a single ratio and does not. -/
theorem skew_missing_ratio_cx :
    skewWarn [⟨RatioField.num (1 / 2)⟩, ⟨RatioField.missing⟩] = true
    ∧ specSkewWarn [⟨RatioField.num (1 / 2)⟩, ⟨RatioField.missing⟩] = false := by
  have hr : skewRatios [⟨RatioField.num (1 / 2)⟩, ⟨RatioField.missing⟩] = [1 / 2, 0] := by
    simp [skewRatios, ratioContribution]
  have hr2 : specSkewRatios [⟨RatioField.num (1 / 2)⟩, ⟨RatioField.missing⟩] = [1 / 2] := by
    simp [specSkewRatios]
  constructor
  · unfold skewWarn
    rw [if_pos (by norm_num), hr]
    simp only [List.foldl_cons, List.foldl_nil, decide_eq_true_eq]
    rw [max_eq_left (by norm_num : (0 : ℚ) ≤ 1 / 2), min_eq_right (by norm_num : (0 : ℚ) ≤ 1 / 2)]
    norm_num
  · unfold specSkewWarn
    rw [hr2]

/-- C4 amended: the skew WARN fires iff there are at least 2 subtasks and
two contributed values differ by more than 0.30, where a subtask with a
missing ratio field contributes 0 and one with a present non-numeric
ratio contributes nothing. -/
theorem skew_rule_amended (subtasks : List BpSubtask) :
    skewWarn subtasks = true
      ↔ 1 < subtasks.length
        ∧ ∃ a ∈ skewRatios subtasks, ∃ b ∈ skewRatios subtasks, 3 / 10 < a - b := by
  unfold skewWarn
  by_cases hlen : 1 < subtasks.length
  · rw [if_pos hlen]
    cases hr : skewRatios subtasks with
    | nil => simp [hr, hlen]
    | cons r rs =>
      simp only [decide_eq_true_eq]
      constructor
      · intro h
        refine ⟨hlen, rs.foldl max r, ?_, rs.foldl min r, ?_, h⟩
        · exact foldl_max_mem r rs
        · exact foldl_min_mem r rs
      · rintro ⟨-, a, ha, b, hb, hab⟩
        have h1 : a ≤ rs.foldl max r := le_foldl_max r rs a ha
        have h2 : rs.foldl min r ≤ b := foldl_min_le r rs b hb
        linarith
  · rw [if_neg hlen]
    simp [hlen]

/-- C9 counterexample: a snapshot with uptime 11 minutes and an
unavailable completed-checkpoint count.  The code defaults the absent
count to 0 and emits the stale-checkpointing WARN, while the claim
(`specStaleCond`, absent inputs suppress the finding) says it must not
be emitted. -/
theorem stale_absent_completed_cx :
    JobHint.staleCheckpointing ∈
      jobHints ⟨some 660000, some 0, some 0, none, some 0, none, none⟩
    ∧ specStaleCond ⟨some 660000, some 0, some 0, none, some 0, none, none⟩ = false := by
  constructor <;> decide

/-- C9 amended: the evaluator is a total function (it never raises); an
absent uptime suppresses the stale-checkpointing WARN, but an absent
completed-checkpoint count is treated as 0, so the WARN is emitted iff
the uptime is present and above 10 minutes and the completed count is
absent or zero. -/
theorem stale_rule_amended (s : JobMetricsSnapshot) :
    JobHint.staleCheckpointing ∈ jobHints s
      ↔ ((∃ u, s.uptimeMs = some u ∧ 600000 < u)
          ∧ (s.completedCkpt = none ∨ s.completedCkpt = some 0)) := by
  rw [mem_jobHints]
  simp only [and_true, and_false, false_or, or_false, reduceCtorEq]
  unfold staleCond
  cases hu : s.uptimeMs with
  | none => simp
  | some u =>
    cases hc : s.completedCkpt with
    | none => simp
    | some c => simp

/-- C3: every Flink-querying tool other than initialize and status checks
the gate first: while no initialize call has succeeded it returns the one
not-initialized error and issues no network request; a failed initialize
leaves the state untouched; and after a trailing successful initialize
the gate passes and the body runs against that initialize's trimmed
endpoint (the endpoint of the last successful initialize). -/
theorem require_initialized_gate :
    (∀ (α : Type) (s : ConnState) (body : String → List String × α),
        s.initialized = false → gatedOp s body = OpResult.notInit notInitializedMsg)
    ∧ (∀ (α : Type) (s : ConnState) (evs : List (String × Bool)) (u : String)
        (body : String → List String × α),
        gatedOp (applyInits s (evs ++ [(u, true)])) body
          = OpResult.ran (body (rstripSlash u)).1 (body (rstripSlash u)).2)
    ∧ (∀ (s : ConnState) (evs : List (String × Bool)) (u : String),
        applyInits s (evs ++ [(u, false)]) = applyInits s evs) := by
  refine ⟨?_, ?_, ?_⟩
  · intro α s body hinit
    unfold gatedOp check_initialized
    rw [hinit]
    rfl
  · intro α s evs u body
    have happ : applyInits s (evs ++ [(u, true)]) = ⟨some (rstripSlash u), true⟩ := by
      unfold applyInits
      rw [List.foldl_append]
      rfl
    rw [happ]
    rfl
  · intro s evs u
    unfold applyInits
    rw [List.foldl_append]
    rfl

/-- C3 witness: at the initial state any tool body yields the
not-initialized error without requests; after one successful initialize
at `http://h:8081/` the overview body runs against the trimmed endpoint. -/
theorem require_initialized_gate_witness :
    gatedOp initialConn (fun u => ([u ++ "/overview"], u))
        = OpResult.notInit notInitializedMsg
    ∧ gatedOp (applyInits initialConn [("http://h:8081/", true)])
          (fun u => ([u ++ "/overview"], u))
        = OpResult.ran ["http://h:8081/overview"] "http://h:8081" := by
  constructor
  · exact require_initialized_gate.1 String initialConn _ rfl
  · have h := require_initialized_gate.2.1 String initialConn []
      "http://h:8081/" (fun u => ([u ++ "/overview"], u))
    have hst : rstripSlash "http://h:8081/" = "http://h:8081" := by decide
    rw [hst] at h
    exact h

/-- C7 counterexample: with 0 total slots, the rendered slot percentage
of `list_taskmanagers` is the number 0 (displayed as `0.0%`) rather than
the unavailable value the claim (`specPctDisplay`) requires. -/
theorem pct_zero_standin_cx :
    tmSlotPctDisplay 0 0 = 0 ∧ specPctDisplay 0 0 = none := by
  constructor
  · unfold tmSlotPctDisplay
    rw [if_neg (by norm_num)]
  · unfold specPctDisplay
    rw [if_neg (by norm_num)]

/-- C7 amended: the checkpoint success/failure ratios are computed as
numerator/denominator only under a `total > 0` guard and are unavailable
(`none`) otherwise, so no division by zero occurs; the TaskManager slot
and memory percentage displays are likewise guarded but substitute the
literal 0 (rendered as `0.0%`) when the denominator is not positive,
instead of reporting the value as unavailable. -/
theorem ratio_guard_rules :
    (∀ s : JobMetricsSnapshot, 0 < s.totalCkpt.getD 0 →
        failureRatioOf s = some (s.failedCkpt.getD 0 / s.totalCkpt.getD 0)
        ∧ successRatioOf s = some (s.completedCkpt.getD 0 / s.totalCkpt.getD 0))
    ∧ (∀ s : JobMetricsSnapshot, ¬ 0 < s.totalCkpt.getD 0 →
        failureRatioOf s = none ∧ successRatioOf s = none)
    ∧ (∀ used total : ℚ, 0 < total → tmSlotPctDisplay used total = used / total * 100)
    ∧ (∀ used total : ℚ, ¬ 0 < total → tmSlotPctDisplay used total = 0)
    ∧ (∀ freeMem physMem : ℚ, 0 < physMem → tmMemPctDisplay freeMem physMem = freeMem / physMem * 100)
    ∧ (∀ freeMem physMem : ℚ, ¬ 0 < physMem → tmMemPctDisplay freeMem physMem = 0) := by
  refine ⟨?_, ?_, ?_, ?_, ?_, ?_⟩
  · intro s h
    unfold failureRatioOf successRatioOf
    rw [if_pos h, if_pos h]
    exact ⟨rfl, rfl⟩
  · intro s h
    unfold failureRatioOf successRatioOf
    rw [if_neg h, if_neg h]
    exact ⟨rfl, rfl⟩
  · intro used total h
    unfold tmSlotPctDisplay
    rw [if_pos h]
  · intro used total h
    unfold tmSlotPctDisplay
    rw [if_neg h]
  · intro freeMem physMem h
    unfold tmMemPctDisplay
    rw [if_pos h]
  · intro freeMem physMem h
    unfold tmMemPctDisplay
    rw [if_neg h]

/-- C7 witness: with 4 total checkpoints of which 1 failed, the failure
ratio is 25%; with 3 slots of 4 used, the slot display shows 75. -/
theorem ratio_guard_rules_witness :
    failureRatioOf ⟨none, none, some 4, some 2, some 1, none, none⟩ = some (1 / 4)
    ∧ tmSlotPctDisplay 3 4 = 3 / 4 * 100 := by
  constructor
  · have h := (ratio_guard_rules.1 ⟨none, none, some 4, some 2, some 1, none, none⟩
      (by norm_num)).1
    simpa using h
  · exact ratio_guard_rules.2.2.1 3 4 (by norm_num)

/-- C5: normalization keeps an already-numeric value unchanged; a
non-blank string that parses to a finite value becomes an `int` when the
fractional part is exactly zero (denominator 1) and stays a float
otherwise; and a missing, null, blank, or unparseable value yields an
absent numeric result (`none`) — never 0 and never an error (`to_num` is
a total function). -/
theorem to_num_spec :
    (∀ n : PyNum, to_num (some (PyVal.num n)) = some n)
    ∧ (∀ (s : String) (q : ℚ), pyStrip s ≠ "" → pyFloatParse s = some (PyFloat.fin q) →
        to_num (some (PyVal.str s))
          = some (if q.den = 1 then PyNum.int q.num else PyNum.float (PyFloat.fin q)))
    ∧ to_num none = none
    ∧ to_num (some PyVal.null) = none
    ∧ (∀ s : String, pyStrip s = "" → to_num (some (PyVal.str s)) = none)
    ∧ (∀ s : String, pyFloatParse s = none → to_num (some (PyVal.str s)) = none) := by
  refine ⟨?_, ?_, rfl, rfl, ?_, ?_⟩
  · intro n
    rfl
  · intro s q hblank hparse
    simp only [to_num]
    rw [if_neg hblank, hparse]
    show (if PyFloat.fin ((pyTrunc q : ℤ) : ℚ) = PyFloat.fin q then some (PyNum.int (pyTrunc q))
          else some (PyNum.float (PyFloat.fin q)))
        = some (if q.den = 1 then PyNum.int q.num else PyNum.float (PyFloat.fin q))
    by_cases hden : q.den = 1
    · have hcast : ((pyTrunc q : ℤ) : ℚ) = q := (pyTrunc_cast_eq_iff q).mpr hden
      rw [if_pos (by rw [hcast]), if_pos hden]
      have hnum : ((q.num : ℤ) : ℚ) = q := by
        have h2 := Rat.num_div_den q
        rw [hden] at h2
        simpa using h2
      have : pyTrunc q = q.num := by
        apply Rat.intCast_injective
        rw [hcast, hnum]
      rw [this]
    · have hcast : ¬ ((pyTrunc q : ℤ) : ℚ) = q := fun h => hden ((pyTrunc_cast_eq_iff q).mp h)
      rw [if_neg (by simpa using hcast), if_neg hden]
  · intro s hblank
    simp only [to_num]
    rw [if_pos hblank]
  · intro s hparse
    simp only [to_num]
    by_cases hblank : pyStrip s = ""
    · rw [if_pos hblank]
    · rw [if_neg hblank, hparse]

/-- C5 witness: the blank string yields an absent result, and `"2.5"`
parses to the float 5/2 (fractional part nonzero, so it stays a float),
while `"5.0"` becomes the integer 5. -/
theorem to_num_spec_witness :
    to_num (some (PyVal.str "  ")) = none
    ∧ to_num (some (PyVal.str "2.5")) = some (PyNum.float (PyFloat.fin (5 / 2)))
    ∧ to_num (some (PyVal.str "5.0")) = some (PyNum.int 5) := by
  refine ⟨?_, ?_, ?_⟩
  · exact to_num_spec.2.2.2.2.1 "  " (by decide)
  · have h := to_num_spec.2.1 "2.5" (5 / 2) (by decide) (by with_unfolding_all rfl)
    rw [if_neg (by with_unfolding_all decide)] at h
    exact h
  · have h := to_num_spec.2.1 "5.0" 5 (by decide) (by with_unfolding_all rfl)
    rw [if_pos (by with_unfolding_all decide)] at h
    exact h

/-- C6 counterexample: the raw value NaN (already a float, as Python's
`json` module can produce) is returned unchanged by `_to_num`, so a
non-finite numeric value is surfaced, contradicting the claim that a
present numeric result is always finite. -/
theorem to_num_nan_passthrough_cx :
    to_num (some (PyVal.num (PyNum.float PyFloat.nan))) = some (PyNum.float PyFloat.nan)
    ∧ PyNum.isFinite (PyNum.float PyFloat.nan) = false := ⟨rfl, rfl⟩

/-- C6 amended: every present numeric result produced from a *string*
input is finite (the NaN/Infinity spellings fail at `int(f)` and yield
an absent result), and missing/null values yield an absent result; but a
raw value that is already a number is returned unchanged, so an
already-non-finite float passes through. -/
theorem to_num_finiteness :
    (∀ (s : String) (r : PyNum), to_num (some (PyVal.str s)) = some r → r.isFinite = true)
    ∧ (∀ f : PyFloat, to_num (some (PyVal.num (PyNum.float f))) = some (PyNum.float f)) := by
  constructor
  · intro s r h
    simp only [to_num] at h
    by_cases hblank : pyStrip s = ""
    · rw [if_pos hblank] at h
      exact absurd h (by simp)
    · rw [if_neg hblank] at h
      cases hp : pyFloatParse s with
      | none =>
        rw [hp] at h
        exact absurd h (by simp)
      | some f =>
        rw [hp] at h
        cases f with
        | fin q =>
          have h2 : (if PyFloat.fin ((pyTrunc q : ℤ) : ℚ) = PyFloat.fin q
              then some (PyNum.int (pyTrunc q))
              else some (PyNum.float (PyFloat.fin q))) = some r := h
          by_cases hc : PyFloat.fin ((pyTrunc q : ℤ) : ℚ) = PyFloat.fin q
          · rw [if_pos hc] at h2
            cases h2
            rfl
          · rw [if_neg hc] at h2
            cases h2
            rfl
        | nan =>
          have h2 : (none : Option PyNum) = some r := h
          cases h2
        | inf =>
          have h2 : (none : Option PyNum) = some r := h
          cases h2
        | ninf =>
          have h2 : (none : Option PyNum) = some r := h
          cases h2
  · intro f
    rfl

/-- C6 witness: the string `"2.5"` produces a present numeric result and
it is finite. -/
theorem to_num_finiteness_witness :
    PyNum.isFinite (PyNum.float (PyFloat.fin (5 / 2))) = true := by
  apply to_num_finiteness.1 "2.5"
  with_unfolding_all rfl

/-- C8: `fetch_values` partitions the selected names into ordered batches
of 50 whose concatenation is the original list (120 names give batches of
sizes 50, 50, 20, i.e. 3 batched requests); when a batched request fails
with a client-error status (4xx) it abandons batching and re-runs the
per-name fallback, which issues exactly one request per selected name in
the original order while every name succeeds; and in that fallback a
single-name failure makes the whole fetch an error — never a partial
`ok` result. -/
theorem fetch_values_spec :
    (∀ selected : List String, selected.length = 120 →
        (chunk selected 50).map List.length = [50, 50, 20])
    ∧ (∀ selected : List String, (chunk selected 50).flatten = selected)
    ∧ (∀ (server : Server) (selected : List String) (st : ℕ),
        runBatches server (chunk selected 50) = Except.error (FetchErr.http st) →
        400 ≤ st → st < 500 →
        fetch_values server selected = runSinglesRes server selected)
    ∧ (∀ (server : Server) (selected : List String),
        (∀ m ∈ selected, ∃ pts, server [m] = FetchOutcome.ok pts) →
        runSinglesReqs server selected = selected.map (fun m => [m])
        ∧ ∃ r, runSinglesRes server selected = Except.ok r)
    ∧ (∀ (server : Server) (selected : List String),
        (∃ m ∈ selected, ∀ pts, server [m] ≠ FetchOutcome.ok pts) →
        ∃ e, runSinglesRes server selected = Except.error e) := by
  refine ⟨?_, ?_, ?_, ?_, ?_⟩
  · intro selected hlen
    have h := chunkGo_map_length 50 selected (List.replicate 120 "") [] []
      (by rw [hlen, List.length_replicate]) rfl
    unfold chunk
    rw [h]
    decide
  · intro selected
    have h := chunkGo_flatten 50 selected []
    simpa using h
  · intro server selected st hbat h4a h4b
    unfold fetch_values
    rw [hbat]
  · intro server selected hok
    induction selected with
    | nil => exact ⟨rfl, [], rfl⟩
    | cons m ms ih =>
      obtain ⟨pts, hm⟩ := hok m (List.mem_cons_self m ms)
      obtain ⟨hlog, r, hr⟩ := ih (fun x hx => hok x (List.mem_cons_of_mem m hx))
      refine ⟨?_, pts ++ r, ?_⟩
      · simp only [runSinglesReqs]
        rw [hm, List.map_cons, hlog]
      · simp only [runSinglesRes]
        rw [hm, hr]
  · intro server selected hbad
    induction selected with
    | nil =>
      obtain ⟨m, hm, -⟩ := hbad
      exact absurd hm (List.not_mem_nil m)
    | cons m ms ih =>
      obtain ⟨x, hx, hxbad⟩ := hbad
      cases hsv : server [m] with
      | ok pts =>
        rcases List.mem_cons.mp hx with rfl | hx2
        · exact absurd hsv (hxbad pts)
        · obtain ⟨e, he⟩ := ih ⟨x, hx2, hxbad⟩
          refine ⟨e, ?_⟩
          simp only [runSinglesRes]
          rw [hsv, he]
      | httpError st =>
        refine ⟨FetchErr.http st, ?_⟩
        simp only [runSinglesRes]
        rw [hsv]
      | netError =>
        refine ⟨FetchErr.net, ?_⟩
        simp only [runSinglesRes]
        rw [hsv]

/-- C8 witness: 120 names chunk into batches of 50/50/20; a server that
rejects every multi-name request with a 404 forces the fallback, which
issues one request per name in order; a server that rejects single-name
requests makes the fallback an error. -/
theorem fetch_values_spec_witness :
    (chunk (List.replicate 120 "x") 50).map List.length = [50, 50, 20]
    ∧ fetch_values
        (fun req => if req.length = 1 then FetchOutcome.ok [] else FetchOutcome.httpError 404)
        ["a", "b", "c"]
      = runSinglesRes
        (fun req => if req.length = 1 then FetchOutcome.ok [] else FetchOutcome.httpError 404)
        ["a", "b", "c"]
    ∧ runSinglesReqs
        (fun req => if req.length = 1 then FetchOutcome.ok [] else FetchOutcome.httpError 404)
        ["a", "b", "c"]
      = [["a"], ["b"], ["c"]]
    ∧ (∃ e, runSinglesRes (fun _ => FetchOutcome.httpError 500) ["a"] = Except.error e) := by
  refine ⟨fetch_values_spec.1 _ (by simp), ?_, ?_, ?_⟩
  · exact fetch_values_spec.2.2.1 _ _ 404 rfl (by norm_num) (by norm_num)
  · exact (fetch_values_spec.2.2.2.1 _ _ (fun m hm => ⟨[], rfl⟩)).1
  · exact fetch_values_spec.2.2.2.2 _ _ ⟨"a", by simp, fun pts h => FetchOutcome.noConfusion h⟩

/-- C10 counterexample: at b = 1024^5 = 1125899906842624 bytes the loop
stops at the last unit (TB, index 4) with the value 1024, so the
rendered value in the chosen unit is not below 1024. -/
theorem format_bytes_tb_cx :
    format_bytes 1125899906842624 = "1024.00 TB"
    ∧ (fbLoop (1125899906842624 : ℚ) 0).1 = 1024
    ∧ (fbLoop (1125899906842624 : ℚ) 0).2 = 4
    ∧ (1125899906842624 : ℚ) = 1024 ^ 5 := by
  refine ⟨?_, ?_, ?_, ?_⟩ <;> with_unfolding_all rfl

/-- C10 amended: non-positive byte counts render as "0 B"; for any byte
count the loop divides by 1024 while the value is >= 1024 and the unit
index is below 4, so the final value times 1024^index recovers the input,
the index stays at most 4, and the final value is below 1024 unless the
index has reached the last unit (TB); in particular the reported value is
below 1024 whenever the input is below 1024^5. -/
theorem format_bytes_spec :
    (∀ b : ℚ, b ≤ 0 → format_bytes b = "0 B")
    ∧ (∀ b : ℚ,
        (fbLoop b 0).2 ≤ 4
        ∧ (fbLoop b 0).1 * 1024 ^ (fbLoop b 0).2 = b
        ∧ ((fbLoop b 0).1 < 1024 ∨ (fbLoop b 0).2 = 4))
    ∧ (∀ b : ℚ, b < 1024 ^ 5 → (fbLoop b 0).1 < 1024) := by
  refine ⟨?_, ?_, ?_⟩
  · intro b hb
    unfold format_bytes
    rw [if_pos hb]
  · intro b
    refine ⟨fbLoopFuel_snd_le 4 b 0 (by norm_num), ?_, ?_⟩
    · have h := fbLoopFuel_val 4 b 0
      simpa using h
    · exact fbLoopFuel_post 4 b 0 (by norm_num) (by norm_num)
  · intro b hb
    rcases fbLoopFuel_post 4 b 0 (by norm_num) (by norm_num) with h | h
    · exact h
    · have hval := fbLoopFuel_val 4 b 0
      rw [h, pow_zero, mul_one] at hval
      have hpow : (0 : ℚ) < 1024 ^ 4 := by positivity
      have h5 : (1024 : ℚ) ^ 5 = 1024 * 1024 ^ 4 := by ring
      have hlt : (fbLoopFuel 4 b 0).1 * 1024 ^ 4 < 1024 * 1024 ^ 4 := by
        rw [hval, ← h5]
        exact hb
      exact lt_of_mul_lt_mul_right hlt (le_of_lt hpow)

/-- C10 witness: zero bytes render as "0 B", and 2048 bytes (below
1024^5) escalate to a value below 1024 (2 KB). -/
theorem format_bytes_spec_witness :
    format_bytes 0 = "0 B" ∧ (fbLoop (2048 : ℚ) 0).1 < 1024 :=
  ⟨format_bytes_spec.1 0 le_rfl, format_bytes_spec.2.2 2048 (by norm_num)⟩

/-- C2 witness (amended rule): heap 10/10 (100%) warns, heap 9/10 does
not, and 9 of 10 slots used classifies HIGH. -/
theorem heap_slot_threshold_rules_witness :
    heapWarnLine 10 10 = true ∧ slotUtilLevel 9 10 = SlotUtilLevel.high := by
  constructor
  · exact (heap_slot_threshold_rules.1 10 10).mpr (by norm_num)
  · exact (heap_slot_threshold_rules.2 9 10).mpr (by norm_num)

/-- C4 witness (amended rule): ratios 0.10 and 0.50 differ by 0.40 > 0.30,
so the skew WARN fires. -/
theorem skew_rule_amended_witness :
    skewWarn [⟨RatioField.num (1 / 10)⟩, ⟨RatioField.num (1 / 2)⟩] = true := by
  apply (skew_rule_amended _).mpr
  refine ⟨by decide, 1 / 2, ?_, 1 / 10, ?_, by norm_num⟩
  · simp [skewRatios, ratioContribution]
  · simp [skewRatios, ratioContribution]

/-- C9 witness (amended rule): uptime just over 10 minutes with a present
completed count of 0 emits the stale WARN. -/
theorem stale_rule_amended_witness :
    JobHint.staleCheckpointing ∈
      jobHints ⟨some 660001, some 0, some 0, some 0, some 0, none, none⟩ :=
  (stale_rule_amended _).mpr ⟨⟨660001, rfl, by norm_num⟩, Or.inr rfl⟩

end FlinkMCP
